import Mathlib

/-!
Verification of the pagination-and-export pipeline of birdbody (bbcore.py).

The embedding models `TwitterCorpus.get_user_tweets`,
`TwitterCorpus.get_multi_user_tweets`, `TwitterCorpus.user_tweets_to_csv`
and the screen-name parsing of `BirdbodyGUI.download_tweets`.

The external tweepy client is modelled as an environment
`env : Option Int → Except String (List Tweet)`: the argument is the
`max_id` parameter of `api.user_timeline` (`none` for the initial request,
which passes no `max_id`), the `.error` case is a raised
`tweepy.error.TweepError`, and the `.ok` case is the returned page.
The file system is modelled as an explicit `FS` value; `os.makedirs`
failures other than "directory exists" are injected through an oracle
`String → Option Nat` giving the errno of the `OSError` raised for a
directory that does not yet exist. Python exceptions that escape a
function are modelled with `Except PyErr`; the unbounded `while` loop is
modelled with explicit fuel, `PyErr.fuelOut` marking fuel exhaustion
(a model artifact: every theorem below either supplies enough fuel or
assumes the fetch completed).
-/

/-- One fetched record (a tweepy status), with the fields bbcore.py uses:
`id` (integer, used for cursor arithmetic), `id_str`, `created_at`
(modelled as its string rendering, which is what the csv writer emits)
and `text`. -/
structure Tweet where
  id : Int
  id_str : String
  created_at : String
  text : String
  deriving Repr, DecidableEq

instance : Inhabited Tweet := ⟨⟨0, "", "", ""⟩⟩

/-- A Python exception escaping a modelled function.
`tweep` is an uncaught `tweepy.error.TweepError`; `indexErr` is the
`IndexError` raised by `user_tweets[-1]` on an empty list; `typeErr` is
the `TypeError` raised by the (sic) `raise()` statement in
`user_tweets_to_csv`; `fuelOut` is the fuel-exhaustion model artifact. -/
inductive PyErr where
  | tweep (e : String)
  | indexErr
  | typeErr
  | fuelOut
  deriving Repr, DecidableEq

/-- A message sent over the worker's pipe (`conn.send` in bbcore.py). -/
inductive Msg where
  | getting (sn : String)
  | fetchError (e : String)
  | progress (n : Nat) (sn : String)
  | saved (fp : String)
  | doneWith (sn : String)
  deriving Repr, DecidableEq

/-- Observable result of `get_user_tweets` for one account: the final
outcome (the returned list, or the exception that escaped), the list of
page requests issued (the `max_id` argument of each, in order), the
successful requests with the pages they returned, and the messages sent. -/
structure FetchOut where
  outcome : Except PyErr (List Tweet)
  requests : List (Option Int)
  trace : List (Option Int × List Tweet)
  msgs : List Msg
  deriving Repr

/-- The modelled file system: existing directories and files (a later
write to a path replaces the earlier content). -/
structure FS where
  dirs : List String
  files : List (String × String)
  deriving Repr

/-- An `OSError` carrying its errno (17 = EEXIST). -/
structure OSErr where
  errno : Nat
  deriving Repr, DecidableEq

/-- Observable result of `get_multi_user_tweets`: final outcome, final
file system, the exporter invocations (screen name and item list passed
to `user_tweets_to_csv`, in call order) and the messages sent. -/
structure RunOut where
  outcome : Except PyErr Unit
  fs : FS
  exports : List (String × List Tweet)
  msgs : List Msg
  deriving Repr

/-- Model of `os.path.join` for the two-component joins bbcore.py uses. -/
def pjoin (a b : String) : String := a ++ "/" ++ b

/-- Model of `os.makedirs dn`: raises OSError errno 17 when the directory
exists; otherwise the oracle decides whether creation fails (with the
given errno) or succeeds. -/
def makedirs (oracle : String → Option Nat) (fs : FS) (dn : String) :
    Except OSErr FS :=
  if dn ∈ fs.dirs then .error ⟨17⟩
  else
    match oracle dn with
    | some n => .error ⟨n⟩
    | none => .ok ⟨dn :: fs.dirs, fs.files⟩

/-- Write a file, unconditionally replacing any previous content at the
same path (mode "w" of Python `open`). -/
def setFile (files : List (String × String)) (p c : String) :
    List (String × String) :=
  (p, c) :: files.filter (fun q => !(q.1 == p))

/-- Read a file's content from the modelled file system. -/
def getFile (files : List (String × String)) (p : String) : Option String :=
  match files.find? (fun q => q.1 == p) with
  | some q => some q.2
  | none => none

/-- Python csv excel dialect: a field is quoted iff it contains the
delimiter, the quote character or a line-terminator character. -/
def needsQuote (s : String) : Bool :=
  s.data.any (fun c => c = ',' || c = '"' || c = '\r' || c = '\n')

/-- Quote a csv field, doubling embedded quote characters. -/
def quoteField (s : String) : String :=
  "\"" ++ String.join (s.toList.map
    (fun c => if c = '"' then "\"\"" else String.singleton c)) ++ "\""

/-- Encode one csv field with minimal quoting. -/
def encodeField (s : String) : String :=
  if needsQuote s then quoteField s else s

/-- Join strings with the csv delimiter. -/
def joinComma : List String → String
  | [] => ""
  | [s] => s
  | s :: rest => s ++ "," ++ joinComma rest

/-- Encode one csv row: comma-joined fields terminated by CRLF
(`csv.writer` default line terminator). -/
def encodeRow (r : List String) : String :=
  joinComma (r.map encodeField) ++ "\r\n"

/-- Encode a sequence of csv rows, first row first. -/
def csvRows : List (List String) → String
  | [] => ""
  | r :: rs => encodeRow r ++ csvRows rs

/-- The fixed header row written by `user_tweets_to_csv`. -/
def csvHeader : List String := ["TWEET_ID", "CREATED_AT", "TEXT"]

/-- The data row built for one tweet:
`[tweet.id_str, tweet.created_at, tweet.text]`. -/
def tweetRow (t : Tweet) : List String := [t.id_str, t.created_at, t.text]

/-- Model of `TwitterCorpus.user_tweets_to_csv` (bbcore.py lines 77-96):
build the rows, ensure `data_path/tweets` exists (an OSError with
errno 17 is swallowed; any other errno triggers the `raise()` statement,
which in Python 3 raises a TypeError), then overwrite
`data_path/tweets/{screen_name}_tweets.csv` with header plus one row per
tweet and send the "Saved tweets" message. -/
def user_tweets_to_csv (oracle : String → Option Nat) (data_path : String)
    (fs : FS) (user_tweets : List Tweet) (screen_name : String) :
    Except PyErr (FS × String × Msg) :=
  let outtweets := user_tweets.map tweetRow
  let dn := pjoin data_path "tweets"
  match makedirs oracle fs dn with
  | .error e =>
    if e.errno ≠ 17 then .error .typeErr
    else
      let fp := pjoin dn (screen_name ++ "_tweets.csv")
      let content := csvRows ([csvHeader] ++ outtweets)
      .ok (⟨fs.dirs, setFile fs.files fp content⟩, fp, .saved fp)
  | .ok fs1 =>
    let fp := pjoin dn (screen_name ++ "_tweets.csv")
    let content := csvRows ([csvHeader] ++ outtweets)
    .ok (⟨fs1.dirs, setFile fs1.files fp content⟩, fp, .saved fp)

/-- Model of the `while len(new_tweets) > 0` loop of `get_user_tweets`
(bbcore.py lines 62-74). Arguments mirror the Python locals: the page
just fetched (`new_tweets`), the accumulator (`user_tweets`) and the
cursor (`oldest`). A `TweepError` raised by `api.user_timeline` here is
NOT caught (the try/except covers only the initial request) and escapes.
Returns only the requests/trace/messages contributed by the remaining
iterations. -/
def fetchLoop (env : Option Int → Except String (List Tweet)) (sn : String) :
    Nat → List Tweet → List Tweet → Int → FetchOut
  | 0, new_tweets, user_tweets, _ =>
    if new_tweets.length > 0 then ⟨.error .fuelOut, [], [], []⟩
    else ⟨.ok user_tweets, [], [], []⟩
  | fuel + 1, new_tweets, user_tweets, oldest =>
    if new_tweets.length > 0 then
      match env (some oldest) with
      | .error e => ⟨.error (.tweep e), [some oldest], [], []⟩
      | .ok nt =>
        let ut := user_tweets ++ nt
        match ut.getLast? with
        | none => ⟨.error .indexErr, [some oldest], [(some oldest, nt)], []⟩
        | some t =>
          let r := fetchLoop env sn fuel nt ut (t.id - 1)
          ⟨r.outcome, some oldest :: r.requests, (some oldest, nt) :: r.trace,
            Msg.progress ut.length sn :: r.msgs⟩
    else ⟨.ok user_tweets, [], [], []⟩

/-- Model of `TwitterCorpus.get_user_tweets` (bbcore.py lines 44-75):
issue the initial request (no `max_id`); on `TweepError` send the error
over the pipe and return the (empty) accumulator; on success compute
`oldest = user_tweets[-1].id - 1` — which raises IndexError when the
first page is empty — then run the pagination loop. -/
def get_user_tweets (env : Option Int → Except String (List Tweet))
    (sn : String) (fuel : Nat) : FetchOut :=
  match env none with
  | .error e => ⟨.ok [], [none], [], [.fetchError e]⟩
  | .ok new_tweets =>
    match new_tweets.getLast? with
    | none => ⟨.error .indexErr, [none], [(none, new_tweets)], []⟩
    | some t =>
      let r := fetchLoop env sn fuel new_tweets new_tweets (t.id - 1)
      ⟨r.outcome, none :: r.requests, (none, new_tweets) :: r.trace, r.msgs⟩

/-- Model of `TwitterCorpus.get_multi_user_tweets` (bbcore.py lines
30-42): for each screen name in order, send "Getting tweets", fetch,
export, send "Done". An exception escaping `get_user_tweets` or
`user_tweets_to_csv` propagates and aborts the whole batch; messages
already sent and files already written remain observable. -/
def get_multi_user_tweets (env : String → Option Int → Except String (List Tweet))
    (oracle : String → Option Nat) (fuel : Nat) (data_path : String) :
    List String → FS → RunOut
  | [], fs => ⟨.ok (), fs, [], []⟩
  | sn :: rest, fs =>
    let f := get_user_tweets (env sn) sn fuel
    match f.outcome with
    | .error e => ⟨.error e, fs, [], .getting sn :: f.msgs⟩
    | .ok tweets =>
      match user_tweets_to_csv oracle data_path fs tweets sn with
      | .error e => ⟨.error e, fs, [(sn, tweets)], .getting sn :: f.msgs⟩
      | .ok (fs1, _, m) =>
        let r := get_multi_user_tweets env oracle fuel data_path rest fs1
        ⟨r.outcome, r.fs, (sn, tweets) :: r.exports,
          (.getting sn :: f.msgs) ++ (m :: .doneWith sn :: r.msgs)⟩

/-- Whitespace characters removed by Python `str.strip()` (the ASCII
ones; the input widget yields ASCII-ish text). -/
def pyWhitespace (c : Char) : Bool :=
  c = ' ' || c = '\t' || c = '\n' || c = '\r' || c = '\x0b' || c = '\x0c'

/-- Model of Python `str.strip()`: drop leading and trailing whitespace. -/
def pyStrip (l : List Char) : List Char :=
  ((l.dropWhile pyWhitespace).reverse.dropWhile pyWhitespace).reverse

/-- Model of Python `str.split("\n")`: split into lines at each newline
(`"".split("\n")` is `[""]`, a trailing newline yields a trailing empty
line). -/
def pySplitLines : List Char → List (List Char)
  | [] => [[]]
  | c :: cs =>
    if c = '\n' then [] :: pySplitLines cs
    else
      match pySplitLines cs with
      | [] => [[c]]
      | h :: t => (c :: h) :: t

/-- Model of the screen-name parsing in `BirdbodyGUI.download_tweets`
(bbcore.py lines 220-228): split the text area's content on newlines,
strip each line, keep the non-blank ones. -/
def parse_screen_names (sn_text : String) : List String :=
  if sn_text = "" then []
  else ((pySplitLines sn_text.data).map (fun l => String.mk (pyStrip l))).filter
    (fun l => l ≠ "")

/-- Model of the start decision in `BirdbodyGUI.download_tweets`
(bbcore.py lines 230-243): a worker process is started (carrying the
parsed screen names) only when the parsed list is non-empty; `none`
means no worker, hence no fetch and no export. -/
def download_tweets (sn_text : String) : Option (List String) :=
  let screen_names := parse_screen_names sn_text
  if screen_names = [] then none else some screen_names

/-- The abstract exhausted-after-its-list platform used for the request
counting claim: it owns the (recency-ordered, ids strictly decreasing)
list `l` of an account's tweets, serves the most recent 200 on the
initial request and the most recent 200 not newer than `max_id`
otherwise. It serves full pages until the last, partial or empty, page. -/
def serve (l : List Tweet) : Option Int → Except String (List Tweet)
  | none => .ok (l.take 200)
  | some c => .ok ((l.filter (fun t => t.id ≤ c)).take 200)

/-- Pages as a platform returns them: most recent first, identifiers
strictly decreasing along the list. -/
def SortedDesc (l : List Tweet) : Prop :=
  l.Pairwise (fun a b => b.id < a.id)

/-- An oracle under which directory creation never fails fatally: every
error it injects is errno 17 (EEXIST). -/
def benignOracle (oracle : String → Option Nat) : Prop :=
  ∀ d n, oracle d = some n → n = 17

/-- Chain invariant of a fetch trace: each successful page request after
the page `prev` uses the cursor `(id of the last item of prev) - 1`,
`prev` being non-empty, and received its page from the platform. -/
def cursorChain (env : Option Int → Except String (List Tweet)) :
    List Tweet → List (Option Int × List Tweet) → Prop
  | _, [] => True
  | prev, (c, q) :: rest =>
      prev ≠ [] ∧ c = some ((prev.getLastD default).id - 1) ∧
        env c = .ok q ∧ cursorChain env q rest

/-- The output path `user_tweets_to_csv` writes for one screen name:
`data_path/tweets/{screen_name}_tweets.csv`. -/
def pathFor (data_path sn : String) : String :=
  pjoin (pjoin data_path "tweets") (sn ++ "_tweets.csv")

/-- Concrete fixture tweets for witnesses and counterexamples. -/
def tA : Tweet := ⟨10, "10", "d10", "xA"⟩

/-- Concrete fixture tweet with identifier 9. -/
def tB : Tweet := ⟨9, "9", "d9", "xB"⟩

/-- Concrete fixture tweet with identifier 8. -/
def tC : Tweet := ⟨8, "8", "d8", "xC"⟩

/-- Concrete two-account platform used by counterexamples: account "a"
serves one tweet on the initial request and raises a TweepError inside
the pagination loop; every other account serves a one-tweet timeline
normally. -/
def envBoom : String → Option Int → Except String (List Tweet) :=
  fun sn c =>
    if sn = "a" then
      match c with
      | none => .ok [tA]
      | some _ => .error "boom"
    else
      match c with
      | none => .ok [tB]
      | some _ => .ok []

/-- Concrete single-account platform used by the cursor witness: two
pages of tweets followed by exhaustion, honoring `max_id`. -/
def envPages : Option Int → Except String (List Tweet) :=
  fun c =>
    match c with
    | none => .ok [tA, tB]
    | some c => if c = 8 then .ok [tC] else .ok []

/-- Concrete platform on which every account's initial page request
raises a TweepError. -/
def envFail : String → Option Int → Except String (List Tweet) :=
  fun _ _ => .error "authfail"

/-- Concrete platform on which every account has exactly one tweet and
pagination honors `max_id`. -/
def envGood : String → Option Int → Except String (List Tweet) :=
  fun _ c =>
    match c with
    | none => .ok [tB]
    | some _ => .ok []

/-- An oracle that never fails directory creation. -/
def oracle0 : String → Option Nat := fun _ => none

/-- An oracle that always reports errno 13 (EACCES) for a directory that
does not yet exist. -/
def oracle13 : String → Option Nat := fun _ => some 13

/-- The empty file system. -/
def fs0 : FS := ⟨[], []⟩

lemma getFile_setFile (files : List (String × String)) (p c : String) :
    getFile (setFile files p c) p = some c := by
  simp [getFile, setFile, List.find?]

/-- Helper: `user_tweets_to_csv` succeeds, writes the expected path and
content, and leaves the directory set either unchanged or with the
tweets directory added, whenever the mkdir oracle is benign for the
tweets directory. -/
lemma utc_benign (oracle : String → Option Nat) (dp : String) (fs : FS)
    (its : List Tweet) (sn : String)
    (hb : ∀ n, oracle (pjoin dp "tweets") = some n → n = 17) :
    ∃ fs1, user_tweets_to_csv oracle dp fs its sn =
        .ok (fs1, pathFor dp sn, .saved (pathFor dp sn)) ∧
      getFile fs1.files (pathFor dp sn) = some (csvRows ([csvHeader] ++ its.map tweetRow)) ∧
      (fs1.dirs = fs.dirs ∨ fs1.dirs = pjoin dp "tweets" :: fs.dirs) := by
  unfold user_tweets_to_csv makedirs
  by_cases hd : pjoin dp "tweets" ∈ fs.dirs
  · simp [hd, pathFor, getFile_setFile]
  · simp only [hd, if_false]
    cases ho : oracle (pjoin dp "tweets") with
    | none => simp [pathFor, getFile_setFile]
    | some n =>
      have := hb n ho
      subst this
      simp [pathFor, getFile_setFile]

/-- Helper: the export succeeds whenever the tweets directory already
exists, or creating it succeeds, or creating it fails with EEXIST. -/
lemma utc_ok_cases (oracle : String → Option Nat) (dp : String) (fs : FS)
    (its : List Tweet) (sn : String)
    (h : pjoin dp "tweets" ∈ fs.dirs ∨ oracle (pjoin dp "tweets") = none ∨
      oracle (pjoin dp "tweets") = some 17) :
    ∃ r, user_tweets_to_csv oracle dp fs its sn = .ok r := by
  unfold user_tweets_to_csv makedirs
  rcases h with h | h | h
  · simp [h]
  · by_cases hd : pjoin dp "tweets" ∈ fs.dirs
    · simp [hd]
    · simp [hd, h]
  · by_cases hd : pjoin dp "tweets" ∈ fs.dirs
    · simp [hd]
    · simp [hd, h]

/-- Helper: a successful export leaves a state from which a repeat
export must again take a non-fatal directory-creation branch. -/
lemma utc_first_ok_cond (oracle : String → Option Nat) (dp : String) (fs : FS)
    (its : List Tweet) (sn : String) (fs1 : FS) (p : String) (m : Msg)
    (h : user_tweets_to_csv oracle dp fs its sn = .ok (fs1, p, m)) :
    pjoin dp "tweets" ∈ fs1.dirs ∨ oracle (pjoin dp "tweets") = none ∨
      oracle (pjoin dp "tweets") = some 17 := by
  unfold user_tweets_to_csv makedirs at h
  by_cases hd : pjoin dp "tweets" ∈ fs.dirs
  · simp only [hd, if_true] at h
    simp only [show (17 : Nat) ≠ 17 ↔ False by simp, if_false, ite_false,
      Except.ok.injEq, Prod.mk.injEq] at h
    left
    rw [← h.1]
    exact hd
  · simp only [hd, if_false] at h
    cases ho : oracle (pjoin dp "tweets") with
    | none =>
      rw [ho] at h
      simp only [Except.ok.injEq, Prod.mk.injEq] at h
      left
      rw [← h.1]
      exact List.mem_cons_self _ _
    | some n =>
      rw [ho] at h
      by_cases hn : n = 17
      · subst hn
        right; right; rfl
      · simp [hn] at h

/-- Claim C6: the directory-creation step of the exporter is idempotent — a
successful export leaves a state in which a second export for the same
output root cannot fail on directory creation — while any
directory-creation failure other than EEXIST is fatal and surfaces as an
exception to the caller. -/
theorem C6_mkdir_idempotent_or_fatal (oracle : String → Option Nat)
    (data_path : String) (fs : FS) (its its2 : List Tweet) (sn sn2 : String)
    (fs1 : FS) (p : String) (m : Msg) (n : Nat) :
    (user_tweets_to_csv oracle data_path fs its sn = .ok (fs1, p, m) →
      ∃ r, user_tweets_to_csv oracle data_path fs1 its2 sn2 = .ok r) ∧
    (pjoin data_path "tweets" ∉ fs.dirs →
      oracle (pjoin data_path "tweets") = some n → n ≠ 17 →
      user_tweets_to_csv oracle data_path fs its sn = .error .typeErr) := by
  constructor
  · intro h
    exact utc_ok_cases oracle data_path fs1 its2 sn2
      (utc_first_ok_cond oracle data_path fs its sn fs1 p m h)
  · intro hd ho hn
    unfold user_tweets_to_csv makedirs
    simp [hd, ho, hn]

theorem C6_witness :
    (∃ r, user_tweets_to_csv oracle0 "root"
        ⟨["root/tweets"], [("root/tweets/a_tweets.csv", "TWEET_ID,CREATED_AT,TEXT\r\n")]⟩
        [] "b" = .ok r) ∧
    user_tweets_to_csv oracle13 "root" fs0 [] "a" = .error .typeErr := by
  constructor
  · exact (C6_mkdir_idempotent_or_fatal oracle0 "root" fs0 [] [] "a" "b"
      ⟨["root/tweets"], [("root/tweets/a_tweets.csv", "TWEET_ID,CREATED_AT,TEXT\r\n")]⟩
      "root/tweets/a_tweets.csv" (.saved "root/tweets/a_tweets.csv") 0).1 (by rfl)
  · exact (C6_mkdir_idempotent_or_fatal oracle13 "root" fs0 [] [] "a" "b"
      fs0 "" (.saved "") 13).2 (by simp [fs0]) rfl (by decide)

/-- Claim C7: for every item sequence and account identifier, the exporter
writes the file `data_path/tweets/{sn}_tweets.csv` whose content is the
fixed header row followed by exactly one data row per item in fetch
order, replacing whatever content that path previously had (the file
system `fs` is arbitrary, so any existing file is overwritten, with no
merge and no append). -/
theorem C7_export_writes_header_and_rows (oracle : String → Option Nat)
    (dp : String) (fs : FS) (its : List Tweet) (sn : String)
    (hb : ∀ n, oracle (pjoin dp "tweets") = some n → n = 17) :
    ∃ fs1, user_tweets_to_csv oracle dp fs its sn =
        .ok (fs1, pathFor dp sn, .saved (pathFor dp sn)) ∧
      getFile fs1.files (pathFor dp sn) =
        some (encodeRow csvHeader ++ csvRows (its.map tweetRow)) := by
  obtain ⟨fs1, hok, hfile, _⟩ := utc_benign oracle dp fs its sn hb
  exact ⟨fs1, hok, by rw [hfile]; simp [csvRows]⟩

theorem C7_witness :
    ∃ fs1, user_tweets_to_csv oracle0 "root"
        ⟨[], [("root/tweets/a_tweets.csv", "OLD")]⟩ [tA] "a" =
        .ok (fs1, pathFor "root" "a", .saved (pathFor "root" "a")) ∧
      getFile fs1.files (pathFor "root" "a") =
        some (encodeRow csvHeader ++ csvRows ([tA].map tweetRow)) :=
  C7_export_writes_header_and_rows oracle0 "root"
    ⟨[], [("root/tweets/a_tweets.csv", "OLD")]⟩ [tA] "a"
    (fun n h => by simp [oracle0] at h)

/-- Claim C10: an account whose fetch fails on the initial request still gets
exactly one exporter call, with the empty item list, and that call
writes the header-only csv file for the account; the batch then
continues with the remaining accounts. -/
theorem C10_failed_fetch_yields_header_only_export
    (env : String → Option Int → Except String (List Tweet))
    (oracle : String → Option Nat) (fuel : Nat) (dp sn : String)
    (rest : List String) (fs : FS) (e : String)
    (hinit : env sn none = .error e)
    (hb : ∀ n, oracle (pjoin dp "tweets") = some n → n = 17) :
    ∃ fs1, user_tweets_to_csv oracle dp fs [] sn =
        .ok (fs1, pathFor dp sn, .saved (pathFor dp sn)) ∧
      (get_multi_user_tweets env oracle fuel dp (sn :: rest) fs).exports =
        (sn, []) :: (get_multi_user_tweets env oracle fuel dp rest fs1).exports ∧
      getFile fs1.files (pathFor dp sn) = some (encodeRow csvHeader) := by
  obtain ⟨fs1, hok, hfile, _⟩ := utc_benign oracle dp fs [] sn hb
  have hfetch : get_user_tweets (env sn) sn fuel = ⟨.ok [], [none], [], [.fetchError e]⟩ := by
    unfold get_user_tweets
    rw [hinit]
  refine ⟨fs1, hok, ?_, ?_⟩
  · simp only [get_multi_user_tweets, hfetch, hok]
  · rw [hfile]
    simp [csvRows]

theorem C10_witness :
    ∃ fs1, user_tweets_to_csv oracle0 "root" fs0 [] "a" =
        .ok (fs1, pathFor "root" "a", .saved (pathFor "root" "a")) ∧
      (get_multi_user_tweets envFail oracle0 3 "root" ["a", "b"] fs0).exports =
        ("a", []) :: (get_multi_user_tweets envFail oracle0 3 "root" ["b"] fs1).exports ∧
      getFile fs1.files (pathFor "root" "a") = some (encodeRow csvHeader) :=
  C10_failed_fetch_yields_header_only_export envFail oracle0 3 "root" "a" ["b"] fs0
    "authfail" rfl (fun n h => by simp [oracle0] at h)

/-- Claim C8: when the initial page request for an account fails, the failure
is sent to the observer, the account returns the empty sequence after
exactly one page request (no retry), and the orchestrator carries on
with the remaining accounts exactly as if this account had succeeded
with no items. -/
theorem C8_initial_failure_reported_no_retry_no_abort
    (env : String → Option Int → Except String (List Tweet))
    (oracle : String → Option Nat) (fuel : Nat) (dp sn : String)
    (rest : List String) (fs : FS) (e : String)
    (hinit : env sn none = .error e)
    (hb : ∀ n, oracle (pjoin dp "tweets") = some n → n = 17) :
    get_user_tweets (env sn) sn fuel = ⟨.ok [], [none], [], [.fetchError e]⟩ ∧
    ∃ fs1, user_tweets_to_csv oracle dp fs [] sn =
        .ok (fs1, pathFor dp sn, .saved (pathFor dp sn)) ∧
      get_multi_user_tweets env oracle fuel dp (sn :: rest) fs =
        ⟨(get_multi_user_tweets env oracle fuel dp rest fs1).outcome,
         (get_multi_user_tweets env oracle fuel dp rest fs1).fs,
         (sn, []) :: (get_multi_user_tweets env oracle fuel dp rest fs1).exports,
         .getting sn :: .fetchError e :: .saved (pathFor dp sn) :: .doneWith sn ::
           (get_multi_user_tweets env oracle fuel dp rest fs1).msgs⟩ := by
  have hfetch : get_user_tweets (env sn) sn fuel = ⟨.ok [], [none], [], [.fetchError e]⟩ := by
    unfold get_user_tweets
    rw [hinit]
  obtain ⟨fs1, hok, _, _⟩ := utc_benign oracle dp fs [] sn hb
  refine ⟨hfetch, fs1, hok, ?_⟩
  simp only [get_multi_user_tweets, hfetch, hok, List.cons_append, List.nil_append]

theorem C8_witness :
    get_user_tweets (envFail "a") "a" 3 = ⟨.ok [], [none], [], [.fetchError "authfail"]⟩ ∧
    ∃ fs1, user_tweets_to_csv oracle0 "root" fs0 [] "a" =
        .ok (fs1, pathFor "root" "a", .saved (pathFor "root" "a")) ∧
      get_multi_user_tweets envFail oracle0 3 "root" ["a", "b"] fs0 =
        ⟨(get_multi_user_tweets envFail oracle0 3 "root" ["b"] fs1).outcome,
         (get_multi_user_tweets envFail oracle0 3 "root" ["b"] fs1).fs,
         ("a", []) :: (get_multi_user_tweets envFail oracle0 3 "root" ["b"] fs1).exports,
         .getting "a" :: .fetchError "authfail" :: .saved (pathFor "root" "a") ::
           .doneWith "a" ::
           (get_multi_user_tweets envFail oracle0 3 "root" ["b"] fs1).msgs⟩ :=
  C8_initial_failure_reported_no_retry_no_abort envFail oracle0 3 "root" "a" ["b"] fs0
    "authfail" rfl (fun n h => by simp [oracle0] at h)

/-- Claim C2 (amended): an error on the initial page request is surfaced only
as a message and the batch continues, the account yielding the empty
sequence; but an exception escaping `get_user_tweets` — in particular a
TweepError raised inside the pagination loop, which the code does not
catch — aborts the batch: no export happens for the affected account
(its accumulated items are discarded) and no remaining account is
processed. -/
theorem C2_initial_errors_observational_loop_errors_thrown
    (env : String → Option Int → Except String (List Tweet))
    (oracle : String → Option Nat) (fuel : Nat) (dp sn : String)
    (rest : List String) (fs : FS) (e : String) (er : PyErr)
    (hb : ∀ n, oracle (pjoin dp "tweets") = some n → n = 17) :
    (env sn none = .error e →
      ∃ fs1, user_tweets_to_csv oracle dp fs [] sn =
          .ok (fs1, pathFor dp sn, .saved (pathFor dp sn)) ∧
        (get_multi_user_tweets env oracle fuel dp (sn :: rest) fs).outcome =
          (get_multi_user_tweets env oracle fuel dp rest fs1).outcome ∧
        .fetchError e ∈ (get_multi_user_tweets env oracle fuel dp (sn :: rest) fs).msgs) ∧
    ((get_user_tweets (env sn) sn fuel).outcome = .error er →
      get_multi_user_tweets env oracle fuel dp (sn :: rest) fs =
        ⟨.error er, fs, [], .getting sn :: (get_user_tweets (env sn) sn fuel).msgs⟩) := by
  constructor
  · intro hinit
    have hfetch : get_user_tweets (env sn) sn fuel =
        ⟨.ok [], [none], [], [.fetchError e]⟩ := by
      unfold get_user_tweets
      rw [hinit]
    obtain ⟨fs1, hok, _, _⟩ := utc_benign oracle dp fs [] sn hb
    refine ⟨fs1, hok, ?_, ?_⟩
    · simp only [get_multi_user_tweets, hfetch, hok]
    · simp only [get_multi_user_tweets, hfetch, hok, List.cons_append, List.nil_append]
      simp
  · intro herr
    simp only [get_multi_user_tweets, herr]

theorem C2_counterexample :
    (get_multi_user_tweets envBoom oracle0 9 "root" ["a", "b"] fs0).outcome =
      .error (.tweep "boom") ∧
    (get_multi_user_tweets envBoom oracle0 9 "root" ["a", "b"] fs0).exports = [] :=
  ⟨by rfl, by rfl⟩

theorem C2_witness :
    (∃ fs1, user_tweets_to_csv oracle0 "root" fs0 [] "a" =
        .ok (fs1, pathFor "root" "a", .saved (pathFor "root" "a")) ∧
      (get_multi_user_tweets envFail oracle0 3 "root" ["a", "b"] fs0).outcome =
        (get_multi_user_tweets envFail oracle0 3 "root" ["b"] fs1).outcome ∧
      .fetchError "authfail" ∈
        (get_multi_user_tweets envFail oracle0 3 "root" ["a", "b"] fs0).msgs) ∧
    (get_multi_user_tweets envBoom oracle0 9 "other" ["a"] fs0 =
      ⟨.error (.tweep "boom"), fs0, [],
        .getting "a" :: (get_user_tweets (envBoom "a") "a" 9).msgs⟩) := by
  constructor
  · exact (C2_initial_errors_observational_loop_errors_thrown envFail oracle0 3 "root"
      "a" ["b"] fs0 "authfail" .indexErr (fun n h => by simp [oracle0] at h)).1 rfl
  · exact (C2_initial_errors_observational_loop_errors_thrown envBoom oracle0 9 "other"
      "a" [] fs0 "" (.tweep "boom") (fun n h => by simp [oracle0] at h)).2 (by rfl)

/-- Claim C5 (amended): provided every account's fetch completes without an
escaping exception (it succeeds, or fails only on its initial request)
and directory creation is never fatal, the orchestrator invokes the
exporter exactly once per identifier, in input order, and finishes the
whole batch. -/
theorem C5_export_once_per_account_in_order
    (env : String → Option Int → Except String (List Tweet))
    (oracle : String → Option Nat) (fuel : Nat) (dp : String)
    (sns : List String) (fs : FS)
    (hb : benignOracle oracle)
    (hf : ∀ sn ∈ sns, ∃ l, (get_user_tweets (env sn) sn fuel).outcome = Except.ok l) :
    (get_multi_user_tweets env oracle fuel dp sns fs).exports.map Prod.fst = sns ∧
    (get_multi_user_tweets env oracle fuel dp sns fs).outcome = .ok () := by
  induction sns generalizing fs with
  | nil => simp [get_multi_user_tweets]
  | cons sn rest ih =>
    obtain ⟨l, hl⟩ := hf sn (List.mem_cons_self _ _)
    obtain ⟨fs1, hok, _, _⟩ := utc_benign oracle dp fs l sn (fun n h => hb _ n h)
    have hrest := ih fs1 (fun s hs => hf s (List.mem_cons_of_mem _ hs))
    simp only [get_multi_user_tweets, hl, hok]
    simpa using hrest

theorem C5_counterexample :
    (get_multi_user_tweets envBoom oracle0 9 "root" ["a", "b"] fs0).exports.map
      Prod.fst ≠ ["a", "b"] := by
  intro h
  simp [get_multi_user_tweets, get_user_tweets, fetchLoop, envBoom] at h

theorem C5_witness :
    (get_multi_user_tweets envGood oracle0 3 "root" ["a", "b"] fs0).exports.map
      Prod.fst = ["a", "b"] ∧
    (get_multi_user_tweets envGood oracle0 3 "root" ["a", "b"] fs0).outcome = .ok () :=
  C5_export_once_per_account_in_order envGood oracle0 3 "root" ["a", "b"] fs0
    (fun d n h => by simp [oracle0] at h)
    (fun sn _ => ⟨[tB], by rfl⟩)

lemma getLastD_mem : ∀ (l : List Tweet) (d : Tweet), l ≠ [] → l.getLastD d ∈ l := by
  intro l
  induction l with
  | nil => intro d h; exact absurd rfl h
  | cons x xs ih =>
    intro d _
    rw [List.getLastD_cons]
    cases hxs : xs with
    | nil => simp
    | cons y ys =>
      rw [← hxs]
      exact List.mem_cons_of_mem x (ih x (by simp [hxs]))

lemma getLastD_irrel : ∀ (l : List Tweet) (d1 d2 : Tweet), l ≠ [] →
    l.getLastD d1 = l.getLastD d2 := by
  intro l d1 d2 h
  rw [List.getLastD_eq_getLast?, List.getLastD_eq_getLast?]
  cases hl : l.getLast? with
  | none => simp [List.getLast?_eq_none_iff] at hl; exact absurd hl h
  | some t => rfl

/-- Helper: in a strictly descending list, the last element has the
minimal identifier. -/
lemma sorted_last_min : ∀ (l : List Tweet), SortedDesc l →
    ∀ t ∈ l, (l.getLastD default).id ≤ t.id := by
  intro l
  induction l with
  | nil => intro _ t ht; simp at ht
  | cons x xs ih =>
    intro hs t ht
    rw [SortedDesc, List.pairwise_cons] at hs
    rw [List.getLastD_cons]
    rcases List.mem_cons.mp ht with rfl | hmem
    · by_cases hxs : xs = []
      · subst hxs; simp
      · exact le_of_lt (hs.1 _ (getLastD_mem _ _ hxs))
    · have := ih hs.2 t hmem
      rwa [getLastD_irrel xs x default (List.ne_nil_of_mem hmem)]

lemma fetchLoop_nil (env : Option Int → Except String (List Tweet)) (sn : String)
    (fuel : Nat) (ut : List Tweet) (oldest : Int) :
    fetchLoop env sn fuel [] ut oldest = ⟨.ok ut, [], [], []⟩ := by
  cases fuel <;> simp [fetchLoop]

lemma fetchLoop_zero_pos (env : Option Int → Except String (List Tweet)) (sn : String)
    (p ut : List Tweet) (oldest : Int) (h : p.length > 0) :
    fetchLoop env sn 0 p ut oldest = ⟨.error .fuelOut, [], [], []⟩ := by
  simp [fetchLoop, h]

lemma fetchLoop_succ_err (env : Option Int → Except String (List Tweet)) (sn : String)
    (fuel : Nat) (p ut : List Tweet) (oldest : Int) (e : String) (h : p.length > 0)
    (henv : env (some oldest) = .error e) :
    fetchLoop env sn (fuel + 1) p ut oldest =
      ⟨.error (.tweep e), [some oldest], [], []⟩ := by
  simp only [fetchLoop, h, if_true]
  rw [henv]

lemma fetchLoop_succ_ok_none (env : Option Int → Except String (List Tweet)) (sn : String)
    (fuel : Nat) (p ut : List Tweet) (oldest : Int) (nt : List Tweet) (h : p.length > 0)
    (henv : env (some oldest) = .ok nt) (hlast : (ut ++ nt).getLast? = none) :
    fetchLoop env sn (fuel + 1) p ut oldest =
      ⟨.error .indexErr, [some oldest], [(some oldest, nt)], []⟩ := by
  simp only [fetchLoop, h, if_true]
  rw [henv]
  dsimp only
  rw [hlast]

lemma fetchLoop_succ_ok_some (env : Option Int → Except String (List Tweet)) (sn : String)
    (fuel : Nat) (p ut : List Tweet) (oldest : Int) (nt : List Tweet) (t : Tweet)
    (h : p.length > 0)
    (henv : env (some oldest) = .ok nt) (hlast : (ut ++ nt).getLast? = some t) :
    fetchLoop env sn (fuel + 1) p ut oldest =
      ⟨(fetchLoop env sn fuel nt (ut ++ nt) (t.id - 1)).outcome,
       some oldest :: (fetchLoop env sn fuel nt (ut ++ nt) (t.id - 1)).requests,
       (some oldest, nt) :: (fetchLoop env sn fuel nt (ut ++ nt) (t.id - 1)).trace,
       Msg.progress (ut ++ nt).length sn ::
         (fetchLoop env sn fuel nt (ut ++ nt) (t.id - 1)).msgs⟩ := by
  simp only [fetchLoop, h, if_true]
  rw [henv]
  dsimp only
  rw [hlast]

/-- Helper: the pagination loop's trace satisfies the cursor chain
invariant, provided the incoming cursor is derived from the incoming
page's last item. -/
lemma cursorChain_fetchLoop (env : Option Int → Except String (List Tweet))
    (sn : String) : ∀ (fuel : Nat) (p ut : List Tweet) (oldest : Int),
    (p ≠ [] → oldest = (p.getLastD default).id - 1) →
    cursorChain env p (fetchLoop env sn fuel p ut oldest).trace := by
  intro fuel
  induction fuel with
  | zero =>
    intro p ut oldest _
    cases p with
    | nil => rw [fetchLoop_nil]; trivial
    | cons x xs => rw [fetchLoop_zero_pos _ _ _ _ _ (by simp)]; trivial
  | succ fuel ih =>
    intro p ut oldest hp
    cases hp0 : p with
    | nil => rw [fetchLoop_nil]; trivial
    | cons x xs =>
      rw [← hp0]
      have hpne : p ≠ [] := by simp [hp0]
      have hlen : p.length > 0 := by simp [hp0]
      have hcur : oldest = (p.getLastD default).id - 1 := hp hpne
      cases henv : env (some oldest) with
      | error e =>
        rw [fetchLoop_succ_err env sn fuel p ut oldest e hlen henv]
        trivial
      | ok nt =>
        cases hlast : (ut ++ nt).getLast? with
        | none =>
          rw [fetchLoop_succ_ok_none env sn fuel p ut oldest nt hlen henv hlast]
          exact ⟨hpne, by rw [hcur], henv, trivial⟩
        | some t =>
          rw [fetchLoop_succ_ok_some env sn fuel p ut oldest nt t hlen henv hlast]
          refine ⟨hpne, by rw [hcur], henv, ?_⟩
          apply ih
          intro hnt
          have heq : (ut ++ nt).getLast? = nt.getLast? :=
            List.getLast?_append_of_ne_nil ut hnt
          rw [heq] at hlast
          rw [List.getLastD_eq_getLast?, hlast]
          rfl

/-- Helper: every entry of the loop's trace is a faithful record of a
platform response. -/
lemma fetchLoop_trace_env (env : Option Int → Except String (List Tweet))
    (sn : String) : ∀ (fuel : Nat) (p ut : List Tweet) (oldest : Int),
    ∀ e ∈ (fetchLoop env sn fuel p ut oldest).trace, env e.1 = .ok e.2 := by
  intro fuel
  induction fuel with
  | zero =>
    intro p ut oldest e he
    cases p with
    | nil => rw [fetchLoop_nil] at he; simp at he
    | cons x xs => rw [fetchLoop_zero_pos _ _ _ _ _ (by simp)] at he; simp at he
  | succ fuel ih =>
    intro p ut oldest e he
    cases hp0 : p with
    | nil => rw [hp0, fetchLoop_nil] at he; simp at he
    | cons x xs =>
      have hlen : p.length > 0 := by simp [hp0]
      cases henv : env (some oldest) with
      | error er =>
        rw [fetchLoop_succ_err env sn fuel p ut oldest er hlen henv] at he
        simp at he
      | ok nt =>
        cases hlast : (ut ++ nt).getLast? with
        | none =>
          rw [fetchLoop_succ_ok_none env sn fuel p ut oldest nt hlen henv hlast] at he
          simp only [List.mem_singleton] at he
          subst he
          exact henv
        | some t =>
          rw [fetchLoop_succ_ok_some env sn fuel p ut oldest nt t hlen henv hlast] at he
          simp only [List.mem_cons] at he
          rcases he with rfl | he
          · exact henv
          · exact ih _ _ _ e he

/-- Helper: consecutive entries of a chained trace are linked by the
cursor recomputation. -/
lemma cursorChain_get (env : Option Int → Except String (List Tweet)) :
    ∀ (tr : List (Option Int × List Tweet)) (p : List Tweet)
    (i : Nat) (c1 : Option Int) (P1 : List Tweet) (c2 : Option Int) (P2 : List Tweet),
    cursorChain env p tr →
    tr.get? i = some (c1, P1) → tr.get? (i + 1) = some (c2, P2) →
    P1 ≠ [] ∧ c2 = some ((P1.getLastD default).id - 1) := by
  intro tr
  induction tr with
  | nil => intro p i c1 P1 c2 P2 _ h1; simp at h1
  | cons hd tl ih =>
    intro p i c1 P1 c2 P2 hch h1 h2
    have hq : cursorChain env hd.2 tl := by
      obtain ⟨c, q⟩ := hd
      exact hch.2.2.2
    cases i with
    | zero =>
      simp only [List.get?_cons_zero, Option.some.injEq] at h1
      simp only [Nat.zero_add, List.get?_cons_succ] at h2
      cases tl with
      | nil => simp at h2
      | cons hd2 tl2 =>
        simp only [List.get?_cons_zero, Option.some.injEq] at h2
        subst h1
        subst h2
        obtain ⟨hne, hcur, _, _⟩ := hq
        exact ⟨hne, hcur⟩
    | succ j =>
      simp only [List.get?_cons_succ] at h1 h2
      exact ih hd.2 j c1 P1 c2 P2 hq h1 h2

lemma get_user_tweets_err (env : Option Int → Except String (List Tweet))
    (sn : String) (fuel : Nat) (e : String) (h : env none = .error e) :
    get_user_tweets env sn fuel = ⟨.ok [], [none], [], [.fetchError e]⟩ := by
  unfold get_user_tweets
  rw [h]

lemma get_user_tweets_empty (env : Option Int → Except String (List Tweet))
    (sn : String) (fuel : Nat) (nt : List Tweet) (h : env none = .ok nt)
    (hl : nt.getLast? = none) :
    get_user_tweets env sn fuel = ⟨.error .indexErr, [none], [(none, nt)], []⟩ := by
  unfold get_user_tweets
  rw [h]
  dsimp only
  rw [hl]

lemma get_user_tweets_ok (env : Option Int → Except String (List Tweet))
    (sn : String) (fuel : Nat) (nt : List Tweet) (t : Tweet) (h : env none = .ok nt)
    (hl : nt.getLast? = some t) :
    get_user_tweets env sn fuel =
      ⟨(fetchLoop env sn fuel nt nt (t.id - 1)).outcome,
       none :: (fetchLoop env sn fuel nt nt (t.id - 1)).requests,
       (none, nt) :: (fetchLoop env sn fuel nt nt (t.id - 1)).trace,
       (fetchLoop env sn fuel nt nt (t.id - 1)).msgs⟩ := by
  unfold get_user_tweets
  rw [h]
  dsimp only
  rw [hl]

/-- Claim C4: within one account's fetch, for any two consecutive fetched
pages P1, P2, the cursor used to request P2 is recomputed from P1 (the
last page retrieved) alone as `(id of P1's last item) - 1`; assuming the
platform returns pages with identifiers strictly decreasing with recency
it is strictly below every identifier in P1, and assuming the platform
honors `max_id` the cursors strictly decrease (hence are monotonically
non-increasing) across page requests. -/
theorem C4_cursor_recomputed_from_last_page_and_monotone
    (env : Option Int → Except String (List Tweet)) (sn : String) (fuel : Nat)
    (hsort : ∀ c l, env c = Except.ok l → SortedDesc l)
    (hmax : ∀ c l, env (some c) = Except.ok l → ∀ t ∈ l, t.id ≤ c)
    (i : Nat) (c1 : Option Int) (P1 : List Tweet) (c2 : Option Int) (P2 : List Tweet)
    (h1 : (get_user_tweets env sn fuel).trace.get? i = some (c1, P1))
    (h2 : (get_user_tweets env sn fuel).trace.get? (i + 1) = some (c2, P2)) :
    P1 ≠ [] ∧ c2 = some ((P1.getLastD default).id - 1) ∧
    (∀ t ∈ P1, (P1.getLastD default).id - 1 < t.id) ∧
    (∀ a, c1 = some a → ∀ b, c2 = some b → b < a) := by
  cases henv0 : env none with
  | error e =>
    rw [get_user_tweets_err env sn fuel e henv0] at h1
    simp at h1
  | ok p0 =>
    cases hl0 : p0.getLast? with
    | none =>
      rw [get_user_tweets_empty env sn fuel p0 henv0 hl0] at h2
      rcases i with _ | j <;> simp at h2
    | some t0 =>
      rw [get_user_tweets_ok env sn fuel p0 t0 henv0 hl0] at h1 h2
      have hp0ne : p0 ≠ [] := by
        intro h
        rw [h] at hl0
        simp at hl0
      have hchain : cursorChain env p0
          (fetchLoop env sn fuel p0 p0 (t0.id - 1)).trace :=
        cursorChain_fetchLoop env sn fuel p0 p0 (t0.id - 1)
          (fun _ => by rw [List.getLastD_eq_getLast?, hl0]; rfl)
      -- establish the pair link and that P1 was served by the platform at c1
      have key : P1 ≠ [] ∧ c2 = some ((P1.getLastD default).id - 1) ∧
          env c1 = Except.ok P1 := by
        cases i with
        | zero =>
          simp only [List.get?_cons_zero, Option.some.injEq] at h1
          simp only [Nat.zero_add, List.get?_cons_succ] at h2
          cases hltr : (fetchLoop env sn fuel p0 p0 (t0.id - 1)).trace with
          | nil => rw [hltr] at h2; simp at h2
          | cons hd tl =>
            rw [hltr] at h2
            simp only [List.get?_cons_zero, Option.some.injEq] at h2
            rw [hltr] at hchain
            obtain ⟨hne, hcur, _, _⟩ := hchain
            obtain ⟨rfl, rfl⟩ := Prod.mk.inj h1
            subst h2
            exact ⟨hne, hcur, henv0⟩
        | succ j =>
          simp only [List.get?_cons_succ] at h1 h2
          have hpair := cursorChain_get env _ p0 j c1 P1 c2 P2 hchain h1 h2
          have hmem : (c1, P1) ∈ (fetchLoop env sn fuel p0 p0 (t0.id - 1)).trace :=
            List.get?_mem h1
          have := fetchLoop_trace_env env sn fuel p0 p0 (t0.id - 1) (c1, P1) hmem
          exact ⟨hpair.1, hpair.2, this⟩
      obtain ⟨hP1ne, hc2, henvP1⟩ := key
      have hsorted := hsort c1 P1 henvP1
      refine ⟨hP1ne, hc2, ?_, ?_⟩
      · intro t ht
        have := sorted_last_min P1 hsorted t ht
        omega
      · intro a ha b hb
        rw [ha] at henvP1
        have hall := hmax a P1 henvP1
        have hlastmem := getLastD_mem P1 default hP1ne
        have hlastle := hall _ hlastmem
        rw [hb] at hc2
        simp only [Option.some.injEq] at hc2
        omega

theorem C4_witness :
    [tA, tB] ≠ [] ∧
    (some 8 : Option Int) = some (([tA, tB].getLastD default).id - 1) ∧
    (∀ t ∈ [tA, tB], ([tA, tB].getLastD default).id - 1 < t.id) ∧
    (∀ a, (none : Option Int) = some a → ∀ b, (some 8 : Option Int) = some b → b < a) := by
  have hsort : ∀ c l, envPages c = Except.ok l → SortedDesc l := by
    intro c l h
    cases c with
    | none =>
      simp only [envPages, Except.ok.injEq] at h
      subst h
      simp [SortedDesc, tA, tB]
    | some c =>
      by_cases hc : c = 8
      · simp only [envPages, hc, if_true, Except.ok.injEq] at h
        subst h
        simp [SortedDesc]
      · simp only [envPages, hc, if_false, Except.ok.injEq] at h
        subst h
        simp [SortedDesc]
  have hmax : ∀ c l, envPages (some c) = Except.ok l → ∀ t ∈ l, t.id ≤ c := by
    intro c l h t ht
    by_cases hc : c = 8
    · subst hc
      simp only [envPages, if_true, Except.ok.injEq] at h
      subst h
      simp only [List.mem_singleton] at ht
      subst ht
      simp [tC]
    · simp only [envPages, hc, if_false, Except.ok.injEq] at h
      subst h
      simp at ht
  exact C4_cursor_recomputed_from_last_page_and_monotone envPages "w" 5 hsort hmax
    0 none [tA, tB] (some 8) [tC] (by rfl) (by rfl)

/-- Helper: cutting a strictly descending list below the identifier of
its 200th element drops exactly its first 200 elements. -/
lemma filter_last_take (rest : List Tweet) (hs : SortedDesc rest) (hne : rest ≠ []) :
    rest.filter (fun t => t.id ≤ ((rest.take 200).getLastD default).id - 1) =
      rest.drop 200 := by
  have htake_ne : rest.take 200 ≠ [] := by
    simp [List.take_eq_nil_iff, hne]
  obtain ⟨x, hx_mem, hx_eq⟩ : ∃ x, x ∈ rest.take 200 ∧
      (rest.take 200).getLastD default = x :=
    ⟨_, getLastD_mem _ _ htake_ne, rfl⟩
  rw [hx_eq]
  have hsplit := List.pairwise_append.mp
    (show List.Pairwise (fun a b : Tweet => b.id < a.id)
        (rest.take 200 ++ rest.drop 200) by
      rw [List.take_append_drop]; exact hs)
  obtain ⟨hstake, _, hcross⟩ := hsplit
  have hx_min : ∀ t ∈ rest.take 200, x.id ≤ t.id := by
    intro t ht
    have := sorted_last_min _ hstake t ht
    rw [hx_eq] at this
    exact this
  conv_lhs => rw [← List.take_append_drop 200 rest]
  rw [List.filter_append]
  have h1 : (rest.take 200).filter (fun t => t.id ≤ x.id - 1) = [] := by
    rw [List.filter_eq_nil_iff]
    intro t ht
    have := hx_min t ht
    simp only [decide_eq_true_eq]
    omega
  have h2 : (rest.drop 200).filter (fun t => t.id ≤ x.id - 1) = rest.drop 200 := by
    rw [List.filter_eq_self]
    intro t ht
    have := hcross _ hx_mem t ht
    simp only [decide_eq_true_eq]
    omega
  rw [h1, h2, List.nil_append]

/-- Helper: one cursor step of the abstract platform: if the unserved
suffix is `rest`, the cursor recomputed from the page `rest.take 200`
leaves exactly `rest.drop 200` unserved. -/
lemma filter_chain (l rest : List Tweet) (oldest : Int) (hs : SortedDesc l)
    (hrest : l.filter (fun t => t.id ≤ oldest) = rest) (hne : rest ≠ []) :
    l.filter (fun t => t.id ≤ ((rest.take 200).getLastD default).id - 1) =
      rest.drop 200 := by
  have htake_ne : rest.take 200 ≠ [] := by
    simp [List.take_eq_nil_iff, hne]
  obtain ⟨x, hx_mem, hx_eq⟩ : ∃ x, x ∈ rest.take 200 ∧
      (rest.take 200).getLastD default = x :=
    ⟨_, getLastD_mem _ _ htake_ne, rfl⟩
  rw [hx_eq]
  have hx_rest : x ∈ rest := List.mem_of_mem_take hx_mem
  have hx_filter : x ∈ l.filter (fun t => t.id ≤ oldest) := by
    rw [hrest]; exact hx_rest
  have hx_le : x.id ≤ oldest := by
    have := (List.mem_filter.mp hx_filter).2
    simpa using this
  have hrs : SortedDesc rest := by
    rw [← hrest]
    exact List.Pairwise.filter _ hs
  have hstep : l.filter (fun t => t.id ≤ x.id - 1) =
      rest.filter (fun t => t.id ≤ x.id - 1) := by
    rw [← hrest, List.filter_filter]
    apply List.filter_congr
    intro t _
    by_cases h : t.id ≤ x.id - 1
    · have h2 : t.id ≤ oldest := by omega
      simp [h, h2]
    · simp [h]
  rw [hstep]
  have hfin := filter_last_take rest hrs hne
  rw [hx_eq] at hfin
  exact hfin

/-- Helper: request count of the pagination loop against the abstract
platform: with `rest` still unserved, the loop issues
`ceil(rest.length / 200) + 1` further requests (the final one receiving
the empty page). -/
lemma fetchLoop_serve_count (l : List Tweet) (sn : String) (hs : SortedDesc l) :
    ∀ (fuel : Nat) (rest p ut : List Tweet) (oldest : Int),
    l.filter (fun t => t.id ≤ oldest) = rest →
    p ≠ [] → ut ≠ [] → rest.length + 1 ≤ fuel →
    (fetchLoop (serve l) sn fuel p ut oldest).requests.length =
      (rest.length + 199) / 200 + 1 := by
  intro fuel
  induction fuel with
  | zero => intro rest p ut oldest _ _ _ hf; omega
  | succ fuel ih =>
    intro rest p ut oldest hrest hp hut hf
    have hlen : p.length > 0 := List.length_pos.mpr hp
    have henv : serve l (some oldest) = .ok (rest.take 200) := by
      simp [serve, hrest]
    by_cases hrnil : rest = []
    · subst hrnil
      cases hu : ut.getLast? with
      | none => exact absurd (List.getLast?_eq_none_iff.mp hu) hut
      | some t =>
        rw [fetchLoop_succ_ok_some (serve l) sn fuel p ut oldest [] t hlen
          (by simpa using henv) (by simpa using hu)]
        simp [fetchLoop_nil]
    · have htake_ne : rest.take 200 ≠ [] := by
        simp [List.take_eq_nil_iff, hrnil]
      have hut' : ut ++ rest.take 200 ≠ [] := by simp [htake_ne]
      cases hu : (ut ++ rest.take 200).getLast? with
      | none => exact absurd (List.getLast?_eq_none_iff.mp hu) hut'
      | some t =>
        have ht : t = (rest.take 200).getLastD default := by
          rw [List.getLast?_append_of_ne_nil ut htake_ne] at hu
          rw [List.getLastD_eq_getLast?, hu]
          rfl
        rw [fetchLoop_succ_ok_some (serve l) sn fuel p ut oldest (rest.take 200) t
          hlen henv hu]
        simp only [List.length_cons]
        have hfilter : l.filter (fun tw => tw.id ≤ t.id - 1) = rest.drop 200 := by
          rw [ht]
          exact filter_chain l rest oldest hs hrest hrnil
        have hrlen : rest.length ≥ 1 := List.length_pos.mpr hrnil
        have hrec := ih (rest.drop 200) (rest.take 200) (ut ++ rest.take 200)
          (t.id - 1) hfilter htake_ne hut'
          (by simp only [List.length_drop]; omega)
        rw [hrec]
        simp only [List.length_drop]
        omega

/-- Claim C3 (amended): against a platform that serves an account's
`total_items` tweets in full pages of 200 until the last, partial or
empty, page, the fetch issues exactly `ceil(total_items / 200) + 1` page
requests when `total_items ≥ 1`: the one extra request receives the
empty page that is the loop's only termination signal. (`total_items = 0`
instead crashes; see the empty-first-page claim.) -/
theorem C3_requests_ceil_plus_one (l : List Tweet) (sn : String) (fuel : Nat)
    (hs : SortedDesc l) (hne : l ≠ []) (hfuel : l.length + 1 ≤ fuel) :
    (get_user_tweets (serve l) sn fuel).requests.length =
      (l.length + 199) / 200 + 1 := by
  have henv0 : serve l none = .ok (l.take 200) := rfl
  have htake_ne : l.take 200 ≠ [] := by
    simp [List.take_eq_nil_iff, hne]
  cases hl : (l.take 200).getLast? with
  | none => exact absurd (List.getLast?_eq_none_iff.mp hl) htake_ne
  | some t =>
    rw [get_user_tweets_ok (serve l) sn fuel (l.take 200) t henv0 hl]
    simp only [List.length_cons]
    have ht : t = (l.take 200).getLastD default := by
      rw [List.getLastD_eq_getLast?, hl]
      rfl
    have hfilter : l.filter (fun tw => tw.id ≤ t.id - 1) = l.drop 200 := by
      rw [ht]
      exact filter_last_take l hs hne
    have hlen1 : l.length ≥ 1 := List.length_pos.mpr hne
    have hcount := fetchLoop_serve_count l sn hs fuel (l.drop 200) (l.take 200)
      (l.take 200) (t.id - 1) hfilter htake_ne htake_ne
      (by simp only [List.length_drop]; omega)
    rw [hcount]
    simp only [List.length_drop]
    omega

theorem C3_counterexample :
    (get_user_tweets (serve [tA]) "a" 2).requests.length = 2 ∧
    ([tA].length + 199) / 200 = 1 := ⟨rfl, rfl⟩

theorem C3_witness :
    (get_user_tweets (serve [tA]) "w" 5).requests.length =
      ([tA].length + 199) / 200 + 1 :=
  C3_requests_ceil_plus_one [tA] "w" 5 (by simp [SortedDesc]) (by simp)
    (by simp)

/-- Claim C1 evaluation: on an account whose first page request succeeds
with an empty page, the code crashes with IndexError at
`user_tweets[-1]` after exactly one page request, instead of returning
the empty sequence with no cursor arithmetic attempted. -/
theorem C1_empty_first_page_crashes :
    get_user_tweets (fun _ => Except.ok []) "emptyuser" 7 =
      ⟨.error .indexErr, [none], [(none, [])], []⟩ := rfl

/-- Claim C9: when every line of the input text strips to the empty
string, no screen names are parsed and no worker is started (hence no
fetch and no export occurs). -/
theorem C9_blank_input_no_worker (sn_text : String)
    (h : ∀ l ∈ pySplitLines sn_text.data, pyStrip l = []) :
    download_tweets sn_text = none := by
  have hp : parse_screen_names sn_text = [] := by
    unfold parse_screen_names
    by_cases hs : sn_text = ""
    · simp [hs]
    · simp only [hs, if_false]
      rw [List.filter_eq_nil_iff]
      intro a ha
      simp only [List.mem_map] at ha
      obtain ⟨l, hl, rfl⟩ := ha
      simp [h l hl]
  simp [download_tweets, hp]

theorem C9_witness : download_tweets "  \n \n" = none :=
  C9_blank_input_no_worker "  \n \n" (by decide)
